import Mathlib

/-!
Verification of the command & path safety filter of `scripts/safety_logic.py`.

The Python module is embedded shallowly: strings are `String`/`List Char`,
each `re.search` call is realised by a tiny backtracking matcher over an
item-list transcription of the concrete pattern, and the dict-shaped
`tool_input` is a record holding the two parameters the filter reads
(`file_path` and `command`), each `Option String` to model a possibly
missing key (`dict.get(key, '')`).
-/

namespace SafetyLogic

/-- Python `\s` (ASCII part): the whitespace characters recognised by
`str.split()` and the `re` module. -/
def isWsChar (c : Char) : Bool :=
  c = ' ' || c = '\t' || c = '\n' || c = '\r' || c = '\x0b' || c = '\x0c'

/-- Python `\w` (ASCII part): word characters for `\b` boundaries. -/
def isWordChar (c : Char) : Bool :=
  c.isAlpha || c.isDigit || c = '_'

/-- The regex class `[a-z]`. -/
def lowerP (c : Char) : Bool := 'a' ≤ c && c ≤ 'z'

/-- The regex class `\s`. -/
def wsP (c : Char) : Bool := isWsChar c

/-- The regex `.` metacharacter: any character except a newline. -/
def dotP (c : Char) : Bool := !(c = '\n')

/-- The backtick character, `re` pattern text `` ` ``. -/
def btChar : Char := Char.ofNat 96

/-- The opening curly brace character. -/
def lbChar : Char := Char.ofNat 123

/-- The closing curly brace character. -/
def rbChar : Char := Char.ofNat 125

/-- One item of a transcribed regular expression.  The fragment of `re`
syntax used by `safety_logic.py` needs only: literal characters,
single-character classes, `*` and `+` over a class, the `$` anchor, a
word boundary `\b` placed after a word character, and negative lookaheads
`(?!...)` whose alternatives are literal strings or a single class. -/
inductive RItem where
  | chr : Char → RItem
  | cls : (Char → Bool) → RItem
  | star : (Char → Bool) → RItem
  | plus : (Char → Bool) → RItem
  | eos : RItem
  | eow : RItem
  | nla : List (List Char) → RItem
  | nlaCls : (Char → Bool) → RItem

/- `eos` realises `$` as end-of-input only.  Python's `$` would also match
just before a final newline, but every `$`-bearing pattern of the source is
applied to the whitespace-normalised command, which cannot contain a
newline, so the two readings agree on all reachable inputs. -/

/-- Transcribe a literal fragment of a pattern. -/
def litsL (w : List Char) : List RItem := w.map RItem.chr

/-- Kleene-star loop: try the continuation `k` at every suffix reachable by
consuming characters of class `p` (the backtracking behaviour of `p*` and,
after one forced character, of `p+`). -/
def starLoop (p : Char → Bool) (k : List Char → Bool) : List Char → Bool
  | [] => k []
  | c :: l => k (c :: l) || (p c && starLoop p k l)

/-- Match an item list against a prefix of `l`; trailing input is
unconstrained, mirroring `re.search` semantics at a fixed start position. -/
def matchItems : List RItem → List Char → Bool
  | [], _ => true
  | RItem.chr _ :: _, [] => false
  | RItem.chr a :: ps, c :: l => a == c && matchItems ps l
  | RItem.cls _ :: _, [] => false
  | RItem.cls p :: ps, c :: l => p c && matchItems ps l
  | RItem.plus _ :: _, [] => false
  | RItem.plus p :: ps, c :: l => p c && starLoop p (matchItems ps) l
  | RItem.star p :: ps, l => starLoop p (matchItems ps) l
  | RItem.eos :: ps, l => l.isEmpty && matchItems ps l
  | RItem.eow :: ps, [] => matchItems ps []
  | RItem.eow :: ps, c :: l => !(isWordChar c) && matchItems ps (c :: l)
  | RItem.nla alts :: ps, l => !(alts.any fun w => w.isPrefixOf l) && matchItems ps l
  | RItem.nlaCls _ :: ps, [] => matchItems ps []
  | RItem.nlaCls p :: ps, c :: l => !(p c) && matchItems ps (c :: l)

/-- A transcribed pattern: optionally anchored at the string start (`^`),
optionally beginning with a word boundary `\b` that precedes a word
character, followed by the item list. -/
structure RPat where
  bow : Bool
  anchored : Bool
  items : List RItem

/-- A leading `\b` before a word character holds when the previous
character is absent or not a word character. -/
def boundaryOk (prev : Option Char) : Bool :=
  match prev with
  | none => true
  | some c => !(isWordChar c)

/-- Try the pattern at the current position and, unless anchored, at every
later position, tracking the previous character for `\b`. -/
def searchAux (pat : RPat) : Option Char → List Char → Bool
  | prev, [] => (!pat.bow || boundaryOk prev) && matchItems pat.items []
  | prev, c :: l =>
      ((!pat.bow || boundaryOk prev) && matchItems pat.items (c :: l)) ||
      (!pat.anchored && searchAux pat (some c) l)

/-- `re.search(pattern, s)` for the transcribed fragment. -/
def reSearch (pat : RPat) (s : List Char) : Bool := searchAux pat none s

/-- Python `needle in haystack` substring containment. -/
def containsSub (pat : List Char) : List Char → Bool
  | [] => pat.isEmpty
  | c :: rest => pat.isPrefixOf (c :: rest) || containsSub pat rest

/-- Python `str.lower()` on one character (ASCII). -/
def toLowerChar (c : Char) : Char :=
  if 'A' ≤ c && c ≤ 'Z' then Char.ofNat (c.toNat + 32) else c

/-- Python `str.lower()` (ASCII). -/
def pyLower (l : List Char) : List Char := l.map toLowerChar

/-- Worker for `str.split()`: `acc` holds the current word reversed. -/
def pySplitAux : List Char → List Char → List (List Char)
  | [], acc => if acc.isEmpty then [] else [acc.reverse]
  | c :: rest, acc =>
      if isWsChar c then
        if acc.isEmpty then pySplitAux rest [] else acc.reverse :: pySplitAux rest []
      else pySplitAux rest (c :: acc)

/-- Python `str.split()` with no argument: split on whitespace runs,
discarding empty words. -/
def pySplit (l : List Char) : List (List Char) := pySplitAux l []

/-- Python `' '.join(words)`. -/
def joinSp : List (List Char) → List Char
  | [] => []
  | [t] => t
  | t :: t' :: ts => t ++ ' ' :: joinSp (t' :: ts)

/-- Python `str.strip()`: drop leading and trailing whitespace. -/
def pyStrip (l : List Char) : List Char :=
  ((l.dropWhile isWsChar).reverse.dropWhile isWsChar).reverse

/-- `' '.join(command.lower().split())` — the normalisation performed by
`is_dangerous_rm_command`. -/
def normalizeCmd (l : List Char) : List Char := joinSp (pySplit (pyLower l))

/-- Patterns of the form `\brm\s+.*` followed by a tail `K`. -/
def patRmThen (K : List RItem) : RPat :=
  ⟨true, false, [RItem.chr 'r', RItem.chr 'm', RItem.plus wsP, RItem.star dotP] ++ K⟩

/-- `--no-preserve-root` -/
def patNoPreserveRoot : RPat := ⟨false, false, litsL "--no-preserve-root".data⟩

/-- `\brm\s+.*-[a-z]*[rf]` -/
def patRmDashRF : RPat :=
  patRmThen [RItem.chr '-', RItem.star lowerP, RItem.cls fun c => c = 'r' || c = 'f']

/-- `\brm\s+.*-[a-z]*r` -/
def patRmDashR : RPat := patRmThen [RItem.chr '-', RItem.star lowerP, RItem.chr 'r']

/-- `\brm\s+.*--recursive` -/
def patRmRecursive : RPat := patRmThen (litsL "--recursive".data)

/-- `\brm\s+.*-[a-z]*f` -/
def patRmDashF : RPat := patRmThen [RItem.chr '-', RItem.star lowerP, RItem.chr 'f']

/-- `\brm\s+.*--force` -/
def patRmForce : RPat := patRmThen (litsL "--force".data)

/-- The `chaining_patterns` table: `&\s*$`, `;\s*`, `\|\|\s*`, `&&\s*`,
`\|\s*(?!\s)`. -/
def chainingPatterns : List RPat :=
  [ ⟨false, false, [RItem.chr '&', RItem.star wsP, RItem.eos]⟩,
    ⟨false, false, [RItem.chr ';', RItem.star wsP]⟩,
    ⟨false, false, [RItem.chr '|', RItem.chr '|', RItem.star wsP]⟩,
    ⟨false, false, [RItem.chr '&', RItem.chr '&', RItem.star wsP]⟩,
    ⟨false, false, [RItem.chr '|', RItem.star wsP, RItem.nlaCls wsP]⟩ ]

/-- Tail `rm\s+.*-[a-z]*[rf].*` shared by the `injection_patterns` table. -/
def injTail (opener closer : List RItem) : List RItem :=
  opener ++ [RItem.chr 'r', RItem.chr 'm', RItem.plus wsP, RItem.star dotP,
    RItem.chr '-', RItem.star lowerP, RItem.cls fun c => c = 'r' || c = 'f',
    RItem.star dotP] ++ closer

/-- The `injection_patterns` table: `;\s*rm\s+.*-[a-z]*[rf].*/` and the
`&&`, `||`, `|`, `$(...)` and backtick variants. -/
def injectionPatterns : List RPat :=
  [ ⟨false, false, injTail [RItem.chr ';', RItem.star wsP] [RItem.chr '/']⟩,
    ⟨false, false, injTail [RItem.chr '&', RItem.chr '&', RItem.star wsP] [RItem.chr '/']⟩,
    ⟨false, false, injTail [RItem.chr '|', RItem.chr '|', RItem.star wsP] [RItem.chr '/']⟩,
    ⟨false, false, injTail [RItem.chr '|', RItem.star wsP] [RItem.chr '/']⟩,
    ⟨false, false, injTail [RItem.chr '$', RItem.chr '(', RItem.star dotP] [RItem.chr ')']⟩,
    ⟨false, false, injTail [RItem.chr btChar, RItem.star dotP] [RItem.chr btChar]⟩ ]

/-- The `dangerous_path_patterns` table (thirteen patterns, in source
order): `\brm\s+.*\s+/$`, `\brm\s+.*\s+/\s*$`, `\brm\s+.*\s+/\*`,
`\brm\s+.*\s+~$`, `\brm\s+.*\s+~/$`, `\brm\s+.*\s+\$home\s*$`,
`\brm\s+.*\s+\.\.$`, `\brm\s+.*\s+\.\./\.\.`, `\brm\s+.*\s+\.$`,
`\brm\s+.*\s+\./$`, `\brm\s+.*\s+\*$`, `\brm\s+.*\s+\$\(.*\)`,
`` \brm\s+.*\s+`.*` ``. -/
def dangerousPathPatterns : List RPat :=
  [ patRmThen [RItem.plus wsP, RItem.chr '/', RItem.eos],
    patRmThen [RItem.plus wsP, RItem.chr '/', RItem.star wsP, RItem.eos],
    patRmThen [RItem.plus wsP, RItem.chr '/', RItem.chr '*'],
    patRmThen [RItem.plus wsP, RItem.chr '~', RItem.eos],
    patRmThen [RItem.plus wsP, RItem.chr '~', RItem.chr '/', RItem.eos],
    patRmThen ([RItem.plus wsP] ++ litsL "$home".data ++ [RItem.star wsP, RItem.eos]),
    patRmThen [RItem.plus wsP, RItem.chr '.', RItem.chr '.', RItem.eos],
    patRmThen ([RItem.plus wsP] ++ litsL "../..".data),
    patRmThen [RItem.plus wsP, RItem.chr '.', RItem.eos],
    patRmThen [RItem.plus wsP, RItem.chr '.', RItem.chr '/', RItem.eos],
    patRmThen [RItem.plus wsP, RItem.chr '*', RItem.eos],
    patRmThen [RItem.plus wsP, RItem.chr '$', RItem.chr '(', RItem.star dotP, RItem.chr ')'],
    patRmThen [RItem.plus wsP, RItem.chr btChar, RItem.star dotP, RItem.chr btChar] ]

/-- The `simple_dangerous_patterns` table used when only the recursive
flag is present: `\brm\s+.*\s+/$`, `\brm\s+.*\s+/\s*$`, `\brm\s+.*\s+~$`,
`\brm\s+.*\s+\.\.$`, `\brm\s+.*\s+\.$`, `\brm\s+.*\s+\*$`. -/
def simpleDangerousPatterns : List RPat :=
  [ patRmThen [RItem.plus wsP, RItem.chr '/', RItem.eos],
    patRmThen [RItem.plus wsP, RItem.chr '/', RItem.star wsP, RItem.eos],
    patRmThen [RItem.plus wsP, RItem.chr '~', RItem.eos],
    patRmThen [RItem.plus wsP, RItem.chr '.', RItem.chr '.', RItem.eos],
    patRmThen [RItem.plus wsP, RItem.chr '.', RItem.eos],
    patRmThen [RItem.plus wsP, RItem.chr '*', RItem.eos] ]

/-- `is_dangerous_rm_command` from `scripts/safety_logic.py` (the
`has_r_flag`/`has_f_flag` bindings are inlined into the branch tests). -/
def is_dangerous_rm_command (command : String) : Bool :=
  if command.data.isEmpty then false
  else if List.isPrefixOf "echo ".data (normalizeCmd command.data) ||
      List.isPrefixOf "#".data (normalizeCmd command.data) then false
  else if reSearch patNoPreserveRoot (normalizeCmd command.data) then true
  else if reSearch patRmDashRF (normalizeCmd command.data) &&
      chainingPatterns.any (fun p => reSearch p (normalizeCmd command.data)) then true
  else if injectionPatterns.any (fun p => reSearch p (normalizeCmd command.data)) then true
  else if (reSearch patRmDashR (normalizeCmd command.data) ||
        reSearch patRmRecursive (normalizeCmd command.data)) &&
      (reSearch patRmDashF (normalizeCmd command.data) ||
        reSearch patRmForce (normalizeCmd command.data)) then
    dangerousPathPatterns.any fun p => reSearch p (normalizeCmd command.data)
  else if reSearch patRmDashR (normalizeCmd command.data) then
    simpleDangerousPatterns.any fun p => reSearch p (normalizeCmd command.data)
  else false

/-- The character class of the safe nested-path patterns: letters,
digits, underscore, dash and slash. -/
def pathCh (c : Char) : Bool :=
  ('a' ≤ c && c ≤ 'z') || ('A' ≤ c && c ≤ 'Z') || ('0' ≤ c && c ≤ '9') ||
    c = '_' || c = '-' || c = '/'

/-- The `safe_patterns` table of `is_safe_rm_command`: `\brm\s+[^-]`,
`\brm\s+-[^rf]*\s+[^/~\*]`, then `\brm\s+-r\s+P+/P+` and
`\brm\s+-rf\s+/tmp/P+` where `P` is the path character class `pathCh`. -/
def safeRmPatterns : List RPat :=
  [ ⟨true, false, [RItem.chr 'r', RItem.chr 'm', RItem.plus wsP, RItem.cls fun c => !(c = '-')]⟩,
    ⟨true, false, [RItem.chr 'r', RItem.chr 'm', RItem.plus wsP, RItem.chr '-',
      RItem.star (fun c => !(c = 'r' || c = 'f')), RItem.plus wsP,
      RItem.cls fun c => !(c = '/' || c = '~' || c = '*')]⟩,
    ⟨true, false, [RItem.chr 'r', RItem.chr 'm', RItem.plus wsP, RItem.chr '-', RItem.chr 'r',
      RItem.plus wsP, RItem.plus pathCh, RItem.chr '/', RItem.plus pathCh]⟩,
    ⟨true, false, [RItem.chr 'r', RItem.chr 'm', RItem.plus wsP, RItem.chr '-', RItem.chr 'r',
      RItem.chr 'f', RItem.plus wsP] ++ litsL "/tmp/".data ++ [RItem.plus pathCh]⟩ ]

/-- `is_safe_rm_command` from `scripts/safety_logic.py`. -/
def is_safe_rm_command (command : String) : Bool :=
  if command.data.isEmpty then false
  else if !(List.isPrefixOf "rm ".data (pyStrip (pyLower command.data))) then false
  else if is_dangerous_rm_command command then false
  else safeRmPatterns.any fun p => reSearch p (pyStrip (pyLower command.data))

/-- The two parameters of a tool invocation that the filter reads; `none`
models an absent dictionary key (`tool_input.get(key, '')` yields `""`). -/
structure ToolInput where
  file_path : Option String
  command : Option String

/-- `tool_input.get(key, '')`. -/
def getParam (o : Option String) : String := o.getD ""

/-- The file-path-bearing tool list `['Read', 'Edit', 'MultiEdit', 'Write']`. -/
def fileTools : List String := ["Read", "Edit", "MultiEdit", "Write"]

/-- The negative lookahead `(?!\.sample|\.local)`. -/
def envNla : RItem := RItem.nla [".sample".data, ".local".data]

/-- The `env_patterns` table of `is_env_file_access` (source order):
`\bcat\s+\.env\b(?!\.sample|\.local)`, the `less`, `head`, `tail`
variants, `\bgrep\s+.*\.env\b(?!\.sample|\.local)`, `\bcp\s+\.env\s`,
`\bmv\s+\.env\s`, `\brm\s+\.env\b(?!\.sample|\.local)`,
`\becho\s+.*>\s*\.env\b(?!\.sample|\.local)`,
`\btouch\s+\.env\b(?!\.sample|\.local)`. -/
def envPatterns : List RPat :=
  [ ⟨true, false, litsL "cat".data ++ [RItem.plus wsP] ++ litsL ".env".data ++ [RItem.eow, envNla]⟩,
    ⟨true, false, litsL "less".data ++ [RItem.plus wsP] ++ litsL ".env".data ++ [RItem.eow, envNla]⟩,
    ⟨true, false, litsL "head".data ++ [RItem.plus wsP] ++ litsL ".env".data ++ [RItem.eow, envNla]⟩,
    ⟨true, false, litsL "tail".data ++ [RItem.plus wsP] ++ litsL ".env".data ++ [RItem.eow, envNla]⟩,
    ⟨true, false, litsL "grep".data ++ [RItem.plus wsP, RItem.star dotP] ++ litsL ".env".data ++ [RItem.eow, envNla]⟩,
    ⟨true, false, litsL "cp".data ++ [RItem.plus wsP] ++ litsL ".env".data ++ [RItem.cls wsP]⟩,
    ⟨true, false, litsL "mv".data ++ [RItem.plus wsP] ++ litsL ".env".data ++ [RItem.cls wsP]⟩,
    ⟨true, false, litsL "rm".data ++ [RItem.plus wsP] ++ litsL ".env".data ++ [RItem.eow, envNla]⟩,
    ⟨true, false, litsL "echo".data ++ [RItem.plus wsP, RItem.star dotP, RItem.chr '>', RItem.star wsP] ++ litsL ".env".data ++ [RItem.eow, envNla]⟩,
    ⟨true, false, litsL "touch".data ++ [RItem.plus wsP] ++ litsL ".env".data ++ [RItem.eow, envNla]⟩ ]

/-- `is_env_file_access` from `scripts/safety_logic.py`. -/
def is_env_file_access (tool_name : String) (tool_input : ToolInput) : Bool :=
  if tool_name = "" then false
  else if fileTools.contains tool_name then
    containsSub ".env".data (getParam tool_input.file_path).data &&
      !(List.isSuffixOf ".env.sample".data (getParam tool_input.file_path).data)
  else if tool_name = "Bash" then
    envPatterns.any fun p => reSearch p (getParam tool_input.command).data
  else false

/-- `[;&|]+` -/
def patChainCls : RPat := ⟨false, false, [RItem.plus fun c => c = ';' || c = '&' || c = '|']⟩

/-- `\$\([^)]*\)` -/
def patSubDollar : RPat :=
  ⟨false, false, [RItem.chr '$', RItem.chr '(', RItem.star (fun c => !(c = ')')), RItem.chr ')']⟩

/-- `` `[^`]*` `` -/
def patSubBacktick : RPat :=
  ⟨false, false, [RItem.chr btChar, RItem.star (fun c => !(c = btChar)), RItem.chr btChar]⟩

/-- `\$\{[^}]*\}` -/
def patVarExpand : RPat :=
  ⟨false, false, [RItem.chr '$', RItem.chr lbChar, RItem.star (fun c => !(c = rbChar)), RItem.chr rbChar]⟩

/-- `detect_command_injection_patterns` from `scripts/safety_logic.py`. -/
def detect_command_injection_patterns (command : String) : List String :=
  if command.data.isEmpty then []
  else
    (if reSearch patChainCls command.data then
      (if command.data.contains ';' then ["command_chaining_semicolon"] else []) ++
      (if containsSub "&&".data command.data then ["command_chaining_and"] else []) ++
      (if containsSub "||".data command.data then ["command_chaining_or"] else []) ++
      (if command.data.contains '|' && !(containsSub "||".data command.data) then
        ["pipe_injection"] else [])
    else []) ++
    (if reSearch patSubDollar command.data then ["command_substitution_dollar"] else []) ++
    (if reSearch patSubBacktick command.data then ["command_substitution_backtick"] else []) ++
    (if reSearch patVarExpand command.data then ["variable_expansion"] else [])

/-- The default `allowed_patterns` table of `validate_file_path_access`:
`^\./[^/]`, `^[^/]`, `^/tmp/`, `^/var/tmp/`. -/
def defaultAllowedPatterns : List RPat :=
  [ ⟨false, true, [RItem.chr '.', RItem.chr '/', RItem.cls fun c => !(c = '/')]⟩,
    ⟨false, true, [RItem.cls fun c => !(c = '/')]⟩,
    ⟨false, true, litsL "/tmp/".data⟩,
    ⟨false, true, litsL "/var/tmp/".data⟩ ]

/-- The `dangerous_patterns` table of `validate_file_path_access`:
`^/etc/`, `^/bin/`, `^/sbin/`, `^/usr/bin/`, `^/root/`,
`^/home/[^/]+/\.`, `^\.\./.*/`. -/
def dangerousPathAccessPatterns : List RPat :=
  [ ⟨false, true, litsL "/etc/".data⟩,
    ⟨false, true, litsL "/bin/".data⟩,
    ⟨false, true, litsL "/sbin/".data⟩,
    ⟨false, true, litsL "/usr/bin/".data⟩,
    ⟨false, true, litsL "/root/".data⟩,
    ⟨false, true, litsL "/home/".data ++ [RItem.plus fun c => !(c = '/')] ++ litsL "/.".data⟩,
    ⟨false, true, litsL "../".data ++ [RItem.star dotP, RItem.chr '/']⟩ ]

/-- `validate_file_path_access` from `scripts/safety_logic.py`; the
`allowed_patterns` argument defaults to `None` in the source. -/
def validate_file_path_access (file_path : String)
    (allowed_patterns : Option (List RPat)) : Bool :=
  if file_path.data.isEmpty then false
  else if dangerousPathAccessPatterns.any (fun p => reSearch p file_path.data) then false
  else if (allowed_patterns.getD defaultAllowedPatterns).any
      (fun p => reSearch p file_path.data) then true
  else false

/-- The assessment dictionary built by `get_safety_assessment`. -/
structure SafetyAssessment where
  blocked : Bool
  reason : Option String
  warnings : List String
  tool_name : String
  patterns_detected : List String
deriving DecidableEq

/-- `get_safety_assessment` from `scripts/safety_logic.py`.  The source
mutates one dictionary and returns early; since `'Bash'` is not a member
of the file-tool list, that control flow is realised by the branch
structure below. -/
def get_safety_assessment (tool_name : String) (tool_input : ToolInput) : SafetyAssessment :=
  let base : SafetyAssessment := ⟨false, none, [], tool_name, []⟩
  if is_env_file_access tool_name tool_input then
    { base with
      blocked := true
      reason := some "Access to .env files containing sensitive data is prohibited"
      patterns_detected := base.patterns_detected ++ ["env_file_access"] }
  else if tool_name = "Bash" then
    if is_dangerous_rm_command (getParam tool_input.command) then
      { base with
        blocked := true
        reason := some "Dangerous rm command detected"
        patterns_detected := base.patterns_detected ++ ["dangerous_rm"] }
    else if (detect_command_injection_patterns (getParam tool_input.command)).isEmpty then base
    else
      { base with
        patterns_detected := base.patterns_detected ++
          detect_command_injection_patterns (getParam tool_input.command)
        warnings := base.warnings ++
          ["Command injection patterns detected: " ++
            String.intercalate ", " (detect_command_injection_patterns (getParam tool_input.command))] }
  else if fileTools.contains tool_name then
    if !(getParam tool_input.file_path).data.isEmpty &&
        !(validate_file_path_access (getParam tool_input.file_path) none) then
      { base with
        blocked := true
        reason := some ("File path access not allowed: " ++ getParam tool_input.file_path)
        patterns_detected := base.patterns_detected ++ ["unsafe_file_access"] }
    else base
  else base

/-! ### Claim-side vocabulary: the hypotheses of the stated properties -/

/-- A dash flag cluster carrying the flag letter `fl`: a `-` followed by
lowercase letters one of which is `fl` (the usual reading of "a `-` flag
cluster containing `r`/`f`", on the lowercased command). -/
def isFlagClusterWith (fl : Char) (t : List Char) : Bool :=
  match t with
  | [] => false
  | c0 :: cs => c0 = '-' && cs.all lowerP && cs.contains fl

/-- A token carrying the recursive flag: a flag cluster containing `r`,
or the literal `--recursive`. -/
def isRecursiveFlagTok (t : List Char) : Bool :=
  isFlagClusterWith 'r' t || t == "--recursive".data

/-- A token carrying the force flag: a flag cluster containing `f`, or
the literal `--force`. -/
def isForceFlagTok (t : List Char) : Bool :=
  isFlagClusterWith 'f' t || t == "--force".data

/-- The five dangerous end-of-string target paths named by the claim. -/
def isDangerTarget (t : List Char) : Bool :=
  t == "/".data || t == "~".data || t == ".".data || t == "..".data || t == "*".data

/-! ### Engine lemmas -/

theorem starLoop_stop {p : Char → Bool} {k : List Char → Bool} {l : List Char}
    (h : k l = true) : starLoop p k l = true := by
  cases l <;> simp [starLoop, h]

theorem starLoop_consume {p : Char → Bool} {k : List Char → Bool} {X Y : List Char}
    (hX : ∀ c ∈ X, p c = true) (hk : k Y = true) : starLoop p k (X ++ Y) = true := by
  induction X with
  | nil => simpa using starLoop_stop (p := p) hk
  | cons c X ih =>
    have hc : p c = true := hX c (by simp)
    have hX' : ∀ d ∈ X, p d = true := fun d hd => hX d (by simp [hd])
    simp [starLoop, hc, ih hX']

theorem matchItems_litsL {w : List Char} {K : List RItem} {l : List Char} :
    matchItems (litsL w ++ K) (w ++ l) = matchItems K l := by
  induction w with
  | nil => rfl
  | cons c w ih =>
    simp only [litsL, List.map_cons, List.cons_append, matchItems, beq_self_eq_true,
      Bool.true_and]
    simpa [litsL] using ih

theorem matchItems_litsL_nil {w l : List Char} :
    matchItems (litsL w) (w ++ l) = true := by
  have h := matchItems_litsL (w := w) (K := []) (l := l)
  rw [List.append_nil] at h
  simp [h, matchItems]

theorem reSearch_start {pat : RPat} {l : List Char}
    (h : matchItems pat.items l = true) : reSearch pat l = true := by
  cases l <;> simp [reSearch, searchAux, boundaryOk, h]

theorem matchItems_rmThen {K : List RItem} {X Y : List Char}
    (hX : ∀ c ∈ X, dotP c = true) (hK : matchItems K Y = true) :
    matchItems (patRmThen K).items ('r' :: 'm' :: ' ' :: (X ++ Y)) = true := by
  have h1 : starLoop dotP (matchItems K) (X ++ Y) = true := starLoop_consume hX hK
  have h3 : starLoop wsP (fun x => starLoop dotP (matchItems K) x) (X ++ Y) = true :=
    starLoop_stop (k := fun x => starLoop dotP (matchItems K) x) h1
  simp [patRmThen, matchItems, h3, wsP, isWsChar]

theorem reSearch_rmThen {K : List RItem} {X Y : List Char}
    (hX : ∀ c ∈ X, dotP c = true) (hK : matchItems K Y = true) :
    reSearch (patRmThen K) ('r' :: 'm' :: ' ' :: (X ++ Y)) = true :=
  reSearch_start (matchItems_rmThen hX hK)

theorem matchItems_dashFlag {fl : Char} {cs1 Z : List Char}
    (h1 : ∀ c ∈ cs1, lowerP c = true) :
    matchItems [RItem.chr '-', RItem.star lowerP, RItem.chr fl]
      ('-' :: (cs1 ++ fl :: Z)) = true := by
  have hk : matchItems [RItem.chr fl] (fl :: Z) = true := by simp [matchItems]
  have h2 : starLoop lowerP (matchItems [RItem.chr fl]) (cs1 ++ fl :: Z) = true :=
    starLoop_consume h1 hk
  simp [matchItems, h2]

theorem matchItems_spaceTail {w : List Char} :
    matchItems ([RItem.plus wsP] ++ litsL w ++ [RItem.eos]) (' ' :: w) = true := by
  have hk : matchItems (litsL w ++ [RItem.eos]) (w ++ []) = true := by
    rw [matchItems_litsL]; rfl
  rw [List.append_nil] at hk
  have h3 : starLoop wsP (matchItems (litsL w ++ [RItem.eos])) w = true :=
    starLoop_stop hk
  show matchItems (RItem.plus wsP :: (litsL w ++ [RItem.eos])) (' ' :: w) = true
  simp only [matchItems, h3, Bool.and_true]
  decide

theorem reSearch_rm_target {w X : List Char} (hX : ∀ c ∈ X, dotP c = true) :
    reSearch (patRmThen ([RItem.plus wsP] ++ litsL w ++ [RItem.eos]))
      ('r' :: 'm' :: ' ' :: (X ++ (' ' :: w))) = true :=
  reSearch_start (matchItems_rmThen hX matchItems_spaceTail)

/-! ### Normalisation lemmas -/

theorem toLowerChar_of_ws {c : Char} (h : isWsChar c = true) : toLowerChar c = c := by
  have h' : c = ' ' ∨ c = '\t' ∨ c = '\n' ∨ c = '\r' ∨ c = '\x0b' ∨ c = '\x0c' := by
    simpa [isWsChar, or_assoc] using h
  rcases h' with rfl | rfl | rfl | rfl | rfl | rfl <;> decide

theorem dotP_of_notWs {c : Char} (h : isWsChar c = false) : dotP c = true := by
  simp only [dotP, Bool.not_eq_true', decide_eq_false_iff_not]
  rintro rfl
  simp [isWsChar] at h

theorem pySplit_rm_head {c : Char} {R : List Char} (h : isWsChar c = true) :
    pySplitAux ('r' :: 'm' :: c :: R) [] = ['r', 'm'] :: pySplitAux R [] := by
  rw [pySplitAux, if_neg (by decide), pySplitAux, if_neg (by decide),
    pySplitAux, if_pos h, if_neg (by decide)]
  rfl

theorem pySplitAux_tokens_noWs : ∀ (l acc : List Char),
    (∀ c ∈ acc, isWsChar c = false) →
    ∀ t ∈ pySplitAux l acc, ∀ c ∈ t, isWsChar c = false := by
  intro l
  induction l with
  | nil =>
    intro acc hacc t ht c hc
    by_cases hae : acc.isEmpty
    · simp [pySplitAux, hae] at ht
    · simp [pySplitAux, hae] at ht
      subst ht
      exact hacc c (List.mem_reverse.mp hc)
  | cons d l ih =>
    intro acc hacc t ht c hc
    by_cases hd : isWsChar d = true
    · by_cases hae : acc.isEmpty
      · rw [pySplitAux, if_pos hd, if_pos hae] at ht
        exact ih [] (by simp) t ht c hc
      · rw [pySplitAux, if_pos hd, if_neg hae] at ht
        rcases List.mem_cons.mp ht with rfl | ht'
        · exact hacc c (List.mem_reverse.mp hc)
        · exact ih [] (by simp) t ht' c hc
    · rw [pySplitAux, if_neg hd] at ht
      refine ih (d :: acc) ?_ t ht c hc
      intro x hx
      rcases List.mem_cons.mp hx with rfl | hx'
      · exact Bool.not_eq_true _ ▸ (by simpa using hd)
      · exact hacc x hx'

theorem joinSp_cons_cons (t t' : List Char) (ts : List (List Char)) :
    joinSp (t :: t' :: ts) = t ++ ' ' :: joinSp (t' :: ts) := rfl

theorem joinSp_mem_split {t : List Char} : ∀ {ts : List (List Char)}, t ∈ ts →
    ∃ X Y, joinSp ts = X ++ (t ++ Y) := by
  intro ts
  induction ts with
  | nil => simp
  | cons a ts ih =>
    intro h
    cases ts with
    | nil =>
      simp only [List.mem_singleton] at h
      subst h
      exact ⟨[], [], by simp [joinSp]⟩
    | cons b ts' =>
      rcases List.mem_cons.mp h with rfl | h'
      · exact ⟨[], ' ' :: joinSp (b :: ts'), by simp [joinSp_cons_cons]⟩
      · obtain ⟨X, Y, hXY⟩ := ih h'
        exact ⟨a ++ ' ' :: X, Y, by simp [joinSp_cons_cons, hXY]⟩

theorem joinSp_last : ∀ (ts : List (List Char)) (tgt : List Char),
    ts.getLast? = some tgt → 2 ≤ ts.length → ∃ X, joinSp ts = X ++ ' ' :: tgt := by
  intro ts
  induction ts with
  | nil => intro tgt h _; simp at h
  | cons a ts ih =>
    intro tgt h hl
    cases ts with
    | nil => simp at hl
    | cons b ts' =>
      cases ts' with
      | nil =>
        have hb : tgt = b := by simpa [List.getLast?] using h.symm
        subst hb
        exact ⟨a, by simp [joinSp]⟩
      | cons c ts'' =>
        have h' : (b :: c :: ts'').getLast? = some tgt := by
          rwa [List.getLast?_cons_cons] at h
        obtain ⟨X, hX⟩ := ih tgt h' (by simp)
        exact ⟨a ++ ' ' :: X, by simp [joinSp_cons_cons, hX]⟩

theorem joinSp_noNewline : ∀ (ts : List (List Char)),
    (∀ t ∈ ts, ∀ c ∈ t, isWsChar c = false) → ∀ c ∈ joinSp ts, dotP c = true := by
  intro ts
  induction ts with
  | nil => simp [joinSp]
  | cons a ts ih =>
    intro hts c hc
    cases ts with
    | nil => exact dotP_of_notWs (hts a (by simp) c (by simpa [joinSp] using hc))
    | cons b ts' =>
      rw [joinSp_cons_cons] at hc
      rcases List.mem_append.mp hc with hca | hcr
      · exact dotP_of_notWs (hts a (by simp) c hca)
      · rcases List.mem_cons.mp hcr with rfl | hcj
        · decide
        · exact ih (fun t htm => hts t (by simp [htm])) c hcj

/-! ### Lemmas about the claim-side vocabulary -/

theorem isDangerTarget_cases {t : List Char} (h : isDangerTarget t = true) :
    t = "/".data ∨ t = "~".data ∨ t = ".".data ∨ t = "..".data ∨ t = "*".data := by
  simpa [isDangerTarget, or_assoc] using h

theorem target_not_rflag {t : List Char} (h : isDangerTarget t = true) :
    isRecursiveFlagTok t = false := by
  rcases isDangerTarget_cases h with rfl | rfl | rfl | rfl | rfl <;> decide

theorem rflag_ne_target {t : List Char} (hf : isRecursiveFlagTok t = true)
    (ht : isDangerTarget t = true) : False := by
  rw [target_not_rflag ht] at hf
  exact Bool.false_ne_true hf

theorem flagTok_split {fl : Char} {t : List Char} (h : isFlagClusterWith fl t = true) :
    ∃ cs1 cs2, t = '-' :: (cs1 ++ fl :: cs2) ∧ ∀ c ∈ cs1, lowerP c = true := by
  cases t with
  | nil => simp [isFlagClusterWith] at h
  | cons c0 cs =>
    simp only [isFlagClusterWith, Bool.and_eq_true, decide_eq_true_eq] at h
    obtain ⟨⟨hc0, hall⟩, hmem⟩ := h
    subst hc0
    have hm : fl ∈ cs := List.mem_of_elem_eq_true hmem
    obtain ⟨cs1, cs2, rfl⟩ := List.append_of_mem hm
    refine ⟨cs1, cs2, rfl, ?_⟩
    intro c hc
    exact (List.all_eq_true.mp hall) c (by simp [hc])

theorem reSearch_flag_of_tok {fl : Char} {rts : List (List Char)} {tr : List Char}
    (hmem : tr ∈ rts) (hnw : ∀ t ∈ rts, ∀ c ∈ t, isWsChar c = false)
    (h : isFlagClusterWith fl tr = true) :
    reSearch (patRmThen [RItem.chr '-', RItem.star lowerP, RItem.chr fl])
      ('r' :: 'm' :: ' ' :: joinSp rts) = true := by
  obtain ⟨cs1, cs2, rfl, hcs1⟩ := flagTok_split h
  obtain ⟨X, Y, hJ⟩ := joinSp_mem_split hmem
  have hXd : ∀ c ∈ X, dotP c = true := fun c hc =>
    joinSp_noNewline rts hnw c (by rw [hJ]; exact List.mem_append_left _ hc)
  have hK : matchItems [RItem.chr '-', RItem.star lowerP, RItem.chr fl]
      (('-' :: (cs1 ++ fl :: cs2)) ++ Y) = true := by
    have h2 := @matchItems_dashFlag fl cs1 (cs2 ++ Y) hcs1
    simpa [List.append_assoc] using h2
  rw [hJ]
  exact reSearch_rmThen hXd hK

theorem reSearch_litflag_of_tok {w : List Char} {rts : List (List Char)} {tr : List Char}
    (hmem : tr ∈ rts) (hnw : ∀ t ∈ rts, ∀ c ∈ t, isWsChar c = false)
    (heq : tr = w) :
    reSearch (patRmThen (litsL w)) ('r' :: 'm' :: ' ' :: joinSp rts) = true := by
  subst heq
  obtain ⟨X, Y, hJ⟩ := joinSp_mem_split hmem
  have hXd : ∀ c ∈ X, dotP c = true := fun c hc =>
    joinSp_noNewline rts hnw c (by rw [hJ]; exact List.mem_append_left _ hc)
  rw [hJ]
  exact reSearch_rmThen hXd matchItems_litsL_nil

theorem reSearch_target_of_last {rts : List (List Char)} {tgt : List Char}
    (hlast : rts.getLast? = some tgt) (hlen : 2 ≤ rts.length)
    (hnw : ∀ t ∈ rts, ∀ c ∈ t, isWsChar c = false) :
    reSearch (patRmThen ([RItem.plus wsP] ++ litsL tgt ++ [RItem.eos]))
      ('r' :: 'm' :: ' ' :: joinSp rts) = true := by
  obtain ⟨X, hX⟩ := joinSp_last rts tgt hlast hlen
  have hXd : ∀ c ∈ X, dotP c = true := fun c hc =>
    joinSp_noNewline rts hnw c (by rw [hX]; exact List.mem_append_left _ hc)
  rw [hX]
  exact reSearch_rm_target hXd

/-! ### Claim theorems -/

/-- C1: every shell command matching `^rm\s` whose (lowercased,
whitespace-split) token list carries both a recursive flag (a `-` flag
cluster containing `r`, or `--recursive`) and a force flag (a cluster
containing `f`, or `--force`) and whose end-of-string target path — its
last token — is `/`, `~`, `.`, `..`, or `*`, is classified dangerous by
`is_dangerous_rm_command`. -/
theorem c1_rm_recursive_force_dangerous_target (command : String)
    (h1 : ∃ c rest, command.data = 'r' :: 'm' :: c :: rest ∧ isWsChar c = true)
    (h2 : (pySplit (pyLower command.data)).any isRecursiveFlagTok = true)
    (h3 : (pySplit (pyLower command.data)).any isForceFlagTok = true)
    (h4 : ∃ tgt, (pySplit (pyLower command.data)).getLast? = some tgt ∧
      isDangerTarget tgt = true) :
    is_dangerous_rm_command command = true := by
  obtain ⟨c, rest, hcmd, hw⟩ := h1
  obtain ⟨tgt, hlast, htgt⟩ := h4
  have hr' : toLowerChar 'r' = 'r' := by decide
  have hm' : toLowerChar 'm' = 'm' := by decide
  have hlow : pyLower command.data = 'r' :: 'm' :: c :: pyLower rest := by
    rw [hcmd]
    simp only [pyLower, List.map_cons, hr', hm', toLowerChar_of_ws hw]
  have hsplit : pySplit (pyLower command.data) =
      ['r', 'm'] :: pySplitAux (pyLower rest) [] := by
    rw [hlow]
    exact pySplit_rm_head hw
  set rts := pySplitAux (pyLower rest) [] with hrtsdef
  rw [hsplit] at h2 h3 hlast
  have hnw : ∀ t ∈ rts, ∀ ch ∈ t, isWsChar ch = false :=
    pySplitAux_tokens_noWs (pyLower rest) [] (by simp)
  obtain ⟨tr, htrmem, htr⟩ := List.any_eq_true.mp h2
  have htrrts : tr ∈ rts := by
    rcases List.mem_cons.mp htrmem with rfl | hh
    · exact absurd htr (by decide)
    · exact hh
  obtain ⟨tf, htfmem, htf⟩ := List.any_eq_true.mp h3
  have htfrts : tf ∈ rts := by
    rcases List.mem_cons.mp htfmem with rfl | hh
    · exact absurd htf (by decide)
    · exact hh
  have hrtsne : rts ≠ [] := by
    intro h0
    rw [h0] at hlast
    have htgtrm : tgt = ['r', 'm'] := by simpa using hlast.symm
    subst htgtrm
    exact absurd htgt (by decide)
  obtain ⟨x, xs, hxxs⟩ : ∃ x xs, rts = x :: xs := by
    cases h' : rts with
    | nil => exact absurd h' hrtsne
    | cons x xs => exact ⟨x, xs, rfl⟩
  have hlast' : rts.getLast? = some tgt := by
    rw [hxxs] at hlast ⊢
    rwa [List.getLast?_cons_cons] at hlast
  have hlen : 2 ≤ rts.length := by
    rw [hxxs]
    cases xs with
    | nil =>
      exfalso
      have h1x : tr = x := by
        rw [hxxs] at htrrts
        simpa using htrrts
      have h2x : tgt = x := by
        rw [hxxs] at hlast'
        simpa using hlast'.symm
      exact rflag_ne_target htr (by rw [h1x, ← h2x]; exact htgt)
    | cons y ys => simp [List.length_cons]
  have hnorm : normalizeCmd command.data = 'r' :: 'm' :: ' ' :: joinSp rts := by
    unfold normalizeCmd
    rw [hsplit, hxxs, joinSp_cons_cons]
    rfl
  have hex : (List.isPrefixOf "echo ".data (normalizeCmd command.data) ||
      List.isPrefixOf "#".data (normalizeCmd command.data)) = false := by
    rw [hnorm]; rfl
  have hhasr : (reSearch patRmDashR (normalizeCmd command.data) ||
      reSearch patRmRecursive (normalizeCmd command.data)) = true := by
    rw [hnorm, Bool.or_eq_true]
    have htr' : isFlagClusterWith 'r' tr = true ∨ tr = "--recursive".data := by
      simpa [isRecursiveFlagTok] using htr
    rcases htr' with hA | hB
    · exact Or.inl (reSearch_flag_of_tok htrrts hnw hA)
    · exact Or.inr (reSearch_litflag_of_tok htrrts hnw hB)
  have hhasf : (reSearch patRmDashF (normalizeCmd command.data) ||
      reSearch patRmForce (normalizeCmd command.data)) = true := by
    rw [hnorm, Bool.or_eq_true]
    have htf' : isFlagClusterWith 'f' tf = true ∨ tf = "--force".data := by
      simpa [isForceFlagTok] using htf
    rcases htf' with hA | hB
    · exact Or.inl (reSearch_flag_of_tok htfrts hnw hA)
    · exact Or.inr (reSearch_litflag_of_tok htfrts hnw hB)
  have hpath : (dangerousPathPatterns.any fun p =>
      reSearch p (normalizeCmd command.data)) = true := by
    rw [hnorm]
    rcases isDangerTarget_cases htgt with rfl | rfl | rfl | rfl | rfl
    · exact List.any_eq_true.mpr
        ⟨_, List.mem_cons_self _ _, reSearch_target_of_last hlast' hlen hnw⟩
    · exact List.any_eq_true.mpr
        ⟨_, List.mem_cons_of_mem _ (List.mem_cons_of_mem _ (List.mem_cons_of_mem _
          (List.mem_cons_self _ _))),
          reSearch_target_of_last hlast' hlen hnw⟩
    · exact List.any_eq_true.mpr
        ⟨_, List.mem_cons_of_mem _ (List.mem_cons_of_mem _ (List.mem_cons_of_mem _
          (List.mem_cons_of_mem _ (List.mem_cons_of_mem _ (List.mem_cons_of_mem _
            (List.mem_cons_of_mem _ (List.mem_cons_of_mem _
              (List.mem_cons_self _ _)))))))),
          reSearch_target_of_last hlast' hlen hnw⟩
    · exact List.any_eq_true.mpr
        ⟨_, List.mem_cons_of_mem _ (List.mem_cons_of_mem _ (List.mem_cons_of_mem _
          (List.mem_cons_of_mem _ (List.mem_cons_of_mem _ (List.mem_cons_of_mem _
            (List.mem_cons_self _ _)))))),
          reSearch_target_of_last hlast' hlen hnw⟩
    · exact List.any_eq_true.mpr
        ⟨_, List.mem_cons_of_mem _ (List.mem_cons_of_mem _ (List.mem_cons_of_mem _
          (List.mem_cons_of_mem _ (List.mem_cons_of_mem _ (List.mem_cons_of_mem _
            (List.mem_cons_of_mem _ (List.mem_cons_of_mem _ (List.mem_cons_of_mem _
              (List.mem_cons_of_mem _ (List.mem_cons_self _ _)))))))))),
          reSearch_target_of_last hlast' hlen hnw⟩
  have hne : command.data.isEmpty = false := by rw [hcmd]; rfl
  unfold is_dangerous_rm_command
  simp only [hne, hex, hhasr, hhasf, hpath, Bool.and_self, Bool.false_eq_true, if_false,
    if_true, ite_self]

/-- Witness for C1 at the concrete command `rm -rf /`. -/
theorem c1_rm_recursive_force_dangerous_target_witness :
    (∃ c rest, ("rm -rf /").data = 'r' :: 'm' :: c :: rest ∧ isWsChar c = true) ∧
    (pySplit (pyLower ("rm -rf /").data)).any isRecursiveFlagTok = true ∧
    (pySplit (pyLower ("rm -rf /").data)).any isForceFlagTok = true ∧
    (∃ tgt, (pySplit (pyLower ("rm -rf /").data)).getLast? = some tgt ∧
      isDangerTarget tgt = true) ∧
    is_dangerous_rm_command "rm -rf /" = true :=
  ⟨⟨' ', "-rf /".data, by decide, by decide⟩, by decide, by decide,
    ⟨"/".data, by decide, by decide⟩,
    c1_rm_recursive_force_dangerous_target "rm -rf /"
      ⟨' ', "-rf /".data, by decide, by decide⟩ (by decide) (by decide)
      ⟨"/".data, by decide, by decide⟩⟩

/-- C2: a command whose normalisation (whitespace runs collapsed,
lowercased) starts with `echo ` or `#` is never classified dangerous —
the exemption is decided before any pattern check. -/
theorem c2_echo_comment_exempt (command : String)
    (h : (List.isPrefixOf "echo ".data (normalizeCmd command.data) ||
      List.isPrefixOf "#".data (normalizeCmd command.data)) = true) :
    is_dangerous_rm_command command = false := by
  unfold is_dangerous_rm_command
  by_cases he : command.data.isEmpty
  · simp [he]
  · simp [he, h]

/-- Witness for C2 at a command textually containing both `rm -rf /` and
`--no-preserve-root`. -/
theorem c2_echo_comment_exempt_witness :
    containsSub "rm -rf /".data ("echo rm -rf / --no-preserve-root").data = true ∧
    containsSub "--no-preserve-root".data ("echo rm -rf / --no-preserve-root").data = true ∧
    (List.isPrefixOf "echo ".data
        (normalizeCmd ("echo rm -rf / --no-preserve-root").data) ||
      List.isPrefixOf "#".data
        (normalizeCmd ("echo rm -rf / --no-preserve-root").data)) = true ∧
    is_dangerous_rm_command "echo rm -rf / --no-preserve-root" = false :=
  ⟨by decide, by decide, by decide, c2_echo_comment_exempt _ (by decide)⟩

/-- C3 counterexample: the claim quantifies over every tool name, but for
`Bash` (and any tool outside the file-path set) the `file_path` parameter
is never consulted, so a mapping with `file_path = ".env"` is not
flagged. -/
theorem c3_counterexample :
    containsSub ".env".data (getParam (some ".env")).data = true ∧
    List.isSuffixOf ".env.sample".data (getParam (some ".env")).data = false ∧
    is_env_file_access "Bash" ⟨some ".env", none⟩ = false := by decide

/-- C3 (amended): for every tool in the file-path-bearing set (`Read`,
`Edit`, `MultiEdit`, `Write`), a `file_path` containing `.env` and not
ending in `.env.sample` is flagged as env-file access. -/
theorem c3_env_path_access (tool : String) (ti : ToolInput)
    (htool : fileTools.contains tool = true)
    (hc : containsSub ".env".data (getParam ti.file_path).data = true)
    (hs : List.isSuffixOf ".env.sample".data (getParam ti.file_path).data = false) :
    is_env_file_access tool ti = true := by
  have htool' : tool = "Read" ∨ tool = "Edit" ∨ tool = "MultiEdit" ∨ tool = "Write" := by
    simpa [fileTools] using htool
  have hval : is_env_file_access tool ti =
      (containsSub ".env".data (getParam ti.file_path).data &&
        !(List.isSuffixOf ".env.sample".data (getParam ti.file_path).data)) := by
    rcases htool' with rfl | rfl | rfl | rfl <;> rfl
  rw [hval, hc, hs]
  rfl

/-- Witness for the amended C3 at `Read` of `config/.env`. -/
theorem c3_env_path_access_witness :
    fileTools.contains "Read" = true ∧
    containsSub ".env".data (getParam (some "config/.env")).data = true ∧
    List.isSuffixOf ".env.sample".data (getParam (some "config/.env")).data = false ∧
    is_env_file_access "Read" ⟨some "config/.env", none⟩ = true :=
  ⟨by decide, by decide, by decide,
    c3_env_path_access "Read" ⟨some "config/.env", none⟩ (by decide) (by decide) (by decide)⟩

/-- C4 counterexample: the claim lists `more` among the detected verbs
and asserts `cat .env.local` is flagged, but the source has no `more`
pattern (and exempts `.env.local`), so `more .env` is not flagged. -/
theorem c4_counterexample :
    is_env_file_access "Bash" ⟨none, some "more .env"⟩ = false := by decide

/-- C4 (amended): the `Bash` verb set is `cat`, `less`, `head`, `tail`,
`grep`, `cp`, `mv`, `rm`, `echo`-with-redirection and `touch` (no
`more`), and the exemption covers both `.env.sample` and `.env.local`:
each listed verb on a `.env` token is flagged, while `cat .env.sample`,
`cat .env.local` and `more .env` are not. -/
theorem c4_bash_env_patterns :
    is_env_file_access "Bash" ⟨none, some "cat .env"⟩ = true ∧
    is_env_file_access "Bash" ⟨none, some "less .env"⟩ = true ∧
    is_env_file_access "Bash" ⟨none, some "head .env"⟩ = true ∧
    is_env_file_access "Bash" ⟨none, some "tail .env"⟩ = true ∧
    is_env_file_access "Bash" ⟨none, some "grep PASSWORD .env"⟩ = true ∧
    is_env_file_access "Bash" ⟨none, some "cp .env /tmp/x"⟩ = true ∧
    is_env_file_access "Bash" ⟨none, some "mv .env /tmp/x"⟩ = true ∧
    is_env_file_access "Bash" ⟨none, some "rm .env"⟩ = true ∧
    is_env_file_access "Bash" ⟨none, some "echo SECRET=1 > .env"⟩ = true ∧
    is_env_file_access "Bash" ⟨none, some "touch .env"⟩ = true ∧
    is_env_file_access "Bash" ⟨none, some "cat .env.sample"⟩ = false ∧
    is_env_file_access "Bash" ⟨none, some "cat .env.local"⟩ = false ∧
    is_env_file_access "Bash" ⟨none, some "more .env"⟩ = false := by decide

/-- C5 counterexample: `/opt/data.txt` matches no deny pattern and no
allow pattern, yet the assessment blocks it — a path matching neither
set is blocked, not allowed as the claim states. -/
theorem c5_counterexample :
    dangerousPathAccessPatterns.any
      (fun p => reSearch p ("/opt/data.txt").data) = false ∧
    defaultAllowedPatterns.any (fun p => reSearch p ("/opt/data.txt").data) = false ∧
    (get_safety_assessment "Read" ⟨some "/opt/data.txt", none⟩).blocked = true := by
  decide

theorem gsa_file_blocked {tool : String} {ti : ToolInput}
    (htool : tool = "Read" ∨ tool = "Edit" ∨ tool = "MultiEdit" ∨ tool = "Write")
    (henv : is_env_file_access tool ti = false)
    (hne : (getParam ti.file_path).data.isEmpty = false) :
    (get_safety_assessment tool ti).blocked =
      !(validate_file_path_access (getParam ti.file_path) none) := by
  rcases htool with rfl | rfl | rfl | rfl <;>
    cases hval : validate_file_path_access (getParam ti.file_path) none <;>
      simp [get_safety_assessment, henv, hne, hval, fileTools]

/-- C5 (amended): for a file-path tool with a non-empty `file_path` that
is not env access, the assessment blocks exactly when the path matches a
deny pattern or matches no allow pattern (deny is checked first, and a
path matching neither set is blocked). -/
theorem c5_path_check (tool : String) (ti : ToolInput)
    (htool : fileTools.contains tool = true)
    (henv : is_env_file_access tool ti = false)
    (hne : (getParam ti.file_path).data.isEmpty = false) :
    (get_safety_assessment tool ti).blocked = true ↔
      (dangerousPathAccessPatterns.any
          (fun p => reSearch p (getParam ti.file_path).data) = true ∨
        defaultAllowedPatterns.any
          (fun p => reSearch p (getParam ti.file_path).data) = false) := by
  have htool' : tool = "Read" ∨ tool = "Edit" ∨ tool = "MultiEdit" ∨ tool = "Write" := by
    simpa [fileTools] using htool
  rw [gsa_file_blocked htool' henv hne]
  unfold validate_file_path_access
  rw [if_neg (by simp [hne])]
  by_cases hd : dangerousPathAccessPatterns.any
      (fun p => reSearch p (getParam ti.file_path).data)
  · simp [hd]
  · by_cases ha : defaultAllowedPatterns.any
        (fun p => reSearch p (getParam ti.file_path).data)
    · simp [hd, ha]
    · simp [hd, ha]

/-- Witness for the amended C5 at `Read` of `/etc/passwd` (deny pattern
`^/etc/` matches). -/
theorem c5_path_check_witness :
    fileTools.contains "Read" = true ∧
    is_env_file_access "Read" ⟨some "/etc/passwd", none⟩ = false ∧
    (getParam (some "/etc/passwd")).data.isEmpty = false ∧
    (get_safety_assessment "Read" ⟨some "/etc/passwd", none⟩).blocked = true :=
  ⟨by decide, by decide, by decide,
    (c5_path_check "Read" ⟨some "/etc/passwd", none⟩ (by decide) (by decide)
      (by decide)).mpr (Or.inl (by decide))⟩

/-- C6: an env-file access verdict blocks immediately with the fixed
reason and `env_file_access` as the only detected pattern — the returned
assessment shows no trace of the later rm or path checks, so the env
check takes priority. -/
theorem c6_env_access_blocks_first (tool : String) (ti : ToolInput)
    (h : is_env_file_access tool ti = true) :
    get_safety_assessment tool ti =
      ⟨true, some "Access to .env files containing sensitive data is prohibited",
        [], tool, ["env_file_access"]⟩ := by
  unfold get_safety_assessment
  simp [h]

/-- Witness for C6 at `Read` of `.env`. -/
theorem c6_env_access_blocks_first_witness :
    is_env_file_access "Read" ⟨some ".env", none⟩ = true ∧
    get_safety_assessment "Read" ⟨some ".env", none⟩ =
      ⟨true, some "Access to .env files containing sensitive data is prohibited",
        [], "Read", ["env_file_access"]⟩ :=
  ⟨by decide, c6_env_access_blocks_first "Read" _ (by decide)⟩

/-- C7: a `Bash` invocation that is neither env-file access nor a
dangerous rm command is never blocked; injection findings are reported
only through `patterns_detected` (and a warning), never in the verdict. -/
theorem c7_injection_never_blocks (ti : ToolInput)
    (henv : is_env_file_access "Bash" ti = false)
    (hrm : is_dangerous_rm_command (getParam ti.command) = false) :
    (get_safety_assessment "Bash" ti).blocked = false ∧
    (get_safety_assessment "Bash" ti).reason = none ∧
    (get_safety_assessment "Bash" ti).patterns_detected =
      detect_command_injection_patterns (getParam ti.command) := by
  unfold get_safety_assessment
  cases hE : (detect_command_injection_patterns (getParam ti.command)).isEmpty
  · simp [henv, hrm, hE]
  · have : detect_command_injection_patterns (getParam ti.command) = [] := by
      simpa using hE
    simp [henv, hrm, hE, this]

/-- Witness for C7 at `ls ; pwd` (a chaining pattern is detected but
nothing is blocked). -/
theorem c7_injection_never_blocks_witness :
    is_env_file_access "Bash" ⟨none, some "ls ; pwd"⟩ = false ∧
    is_dangerous_rm_command (getParam (some "ls ; pwd")) = false ∧
    (get_safety_assessment "Bash" ⟨none, some "ls ; pwd"⟩).blocked = false ∧
    (get_safety_assessment "Bash" ⟨none, some "ls ; pwd"⟩).patterns_detected =
      detect_command_injection_patterns (getParam (some "ls ; pwd")) :=
  ⟨by decide, by decide,
    (c7_injection_never_blocks ⟨none, some "ls ; pwd"⟩ (by decide) (by decide)).1,
    (c7_injection_never_blocks ⟨none, some "ls ; pwd"⟩ (by decide) (by decide)).2.2⟩

/-- C8 counterexample: for `Bash` the `file_path` parameter is ignored,
so an invocation whose `file_path` ends in `.env.sample` is still
flagged through its `command` — the claim's quantification over every
tool name fails. -/
theorem c8_counterexample :
    List.isSuffixOf ".env.sample".data (getParam (some "x.env.sample")).data = true ∧
    is_env_file_access "Bash" ⟨some "x.env.sample", some "cat .env"⟩ = true := by
  decide

/-- C8 (amended): for every tool other than `Bash`, a `file_path` ending
exactly in `.env.sample` is never flagged as env access, regardless of
any other `.env` occurrence earlier in the path. -/
theorem c8_sample_exempt (tool : String) (ti : ToolInput)
    (hnb : ¬(tool = "Bash"))
    (hs : List.isSuffixOf ".env.sample".data (getParam ti.file_path).data = true) :
    is_env_file_access tool ti = false := by
  unfold is_env_file_access
  by_cases h0 : tool = ""
  · rw [if_pos h0]
  · rw [if_neg h0]
    by_cases h1 : fileTools.contains tool = true
    · rw [if_pos h1, hs]
      simp
    · rw [if_neg h1, if_neg hnb]

/-- Witness for the amended C8 at `Read` of `config.env/app.env.sample`
(an earlier `.env` occurrence is present). -/
theorem c8_sample_exempt_witness :
    ¬("Read" = "Bash") ∧
    containsSub ".env".data (getParam (some "config.env/app.env.sample")).data = true ∧
    List.isSuffixOf ".env.sample".data
      (getParam (some "config.env/app.env.sample")).data = true ∧
    is_env_file_access "Read" ⟨some "config.env/app.env.sample", none⟩ = false :=
  ⟨by decide, by decide, by decide,
    c8_sample_exempt "Read" ⟨some "config.env/app.env.sample", none⟩
      (by decide) (by decide)⟩

/-- C9: a command accepted by `is_safe_rm_command` is never classified
dangerous, and its lowercased stripped text starts with `rm `. -/
theorem c9_safe_implies_not_dangerous (command : String)
    (h : is_safe_rm_command command = true) :
    is_dangerous_rm_command command = false ∧
    List.isPrefixOf "rm ".data (pyStrip (pyLower command.data)) = true := by
  unfold is_safe_rm_command at h
  by_cases he : command.data.isEmpty
  · rw [if_pos he] at h
    exact absurd h (by decide)
  · rw [if_neg he] at h
    by_cases hp : List.isPrefixOf "rm ".data (pyStrip (pyLower command.data))
    · rw [if_neg (by simp [hp])] at h
      by_cases hd : is_dangerous_rm_command command
      · rw [if_pos hd] at h
        exact absurd h (by decide)
      · exact ⟨by simpa using hd, hp⟩
    · rw [if_pos (by simp [hp])] at h
      exact absurd h (by decide)

/-- Witness for C9 at `rm file.txt`. -/
theorem c9_safe_implies_not_dangerous_witness :
    is_safe_rm_command "rm file.txt" = true ∧
    is_dangerous_rm_command "rm file.txt" = false ∧
    List.isPrefixOf "rm ".data (pyStrip (pyLower ("rm file.txt").data)) = true :=
  ⟨by decide, (c9_safe_implies_not_dangerous _ (by decide)).1,
    (c9_safe_implies_not_dangerous _ (by decide)).2⟩

/-- C10: a file-path tool invocation with a missing or empty `file_path`
is never blocked — the path check is skipped — even though
`validate_file_path_access` itself rejects the empty path. -/
theorem c10_empty_path_skipped (tool : String) (ti : ToolInput)
    (htool : fileTools.contains tool = true)
    (hfp : getParam ti.file_path = "") :
    (get_safety_assessment tool ti).blocked = false ∧
    validate_file_path_access "" none = false := by
  have htool' : tool = "Read" ∨ tool = "Edit" ∨ tool = "MultiEdit" ∨ tool = "Write" := by
    simpa [fileTools] using htool
  have henv : is_env_file_access tool ti = false := by
    rcases htool' with rfl | rfl | rfl | rfl <;>
      · simp [is_env_file_access, fileTools, hfp]
        decide
  refine ⟨?_, by decide⟩
  rcases htool' with rfl | rfl | rfl | rfl <;>
    simp [get_safety_assessment, henv, hfp, fileTools]

/-- Witness for C10 at `Edit` with no `file_path` key. -/
theorem c10_empty_path_skipped_witness :
    fileTools.contains "Edit" = true ∧
    getParam (⟨none, none⟩ : ToolInput).file_path = "" ∧
    (get_safety_assessment "Edit" ⟨none, none⟩).blocked = false ∧
    validate_file_path_access "" none = false :=
  ⟨by decide, by decide,
    (c10_empty_path_skipped "Edit" ⟨none, none⟩ (by decide) (by decide)).1,
    (c10_empty_path_skipped "Edit" ⟨none, none⟩ (by decide) (by decide)).2⟩

end SafetyLogic
